import Mathlib

/-!
Shallow embedding of `src/Code/C++Src/JniMiracl/MiraclJavaInterface/ECF2mPoint.c`.

The file embeds the two JNI entry points
`Java_edu_biu_scapi_primitives_dlog_miracl_ECF2mPointMiracl_createF2mPoint`
and
`Java_edu_biu_scapi_primitives_dlog_miracl_ECF2mPointMiracl_createRandomF2mPoint`
as pure Lean functions over an explicit state.  The MIRACL field-arithmetic
library is an external collaborator of this core (the spec excludes it), so
its operations (`byteArrayToMiraclBig`, `epoint2_set`, `irand`, `bigrand`)
are fields of a `Collab` structure over which the theorems quantify.
C `int`/`jint` arithmetic is modelled on `Int` with explicit two's-complement
wrapping at 32 bits (`int32`, `xor32`); in particular the C expression
`2^mod` is bitwise XOR, and `2*mod` can wrap.
Native point allocation (`epoint_init`) is modelled by a monotone handle
counter; the MIRACL pseudo-random generator state inside `mip` is a `Nat`
threaded through the calls.
-/

/-- Value of a C `int` two's-complement bit pattern, as the 32-bit word
(a natural number below 2^32). -/
def toWord32 (a : Int) : Nat := (a % (4294967296 : Int)).toNat

/-- Signed reading of a 32-bit word. -/
def ofWord32 (n : Nat) : Int :=
  if n < 2147483648 then (n : Int) else (n : Int) - 4294967296

/-- Wrap an integer to C `int` (32-bit two's complement) semantics. -/
def int32 (a : Int) : Int := ofWord32 (toWord32 a)

/-- C bitwise XOR `a ^ b` on 32-bit ints. -/
def xor32 (a b : Int) : Int := ofWord32 (Nat.xor (toWord32 a) (toWord32 b))

/-- The external MIRACL field-arithmetic collaborator.  Field-element values
(`big`) are modelled by their numeric value; the generator state inside the
`miracl` context is a `Nat`. -/
structure Collab where
  /-- `byteArrayToMiraclBig`: decode a big-endian byte sequence into a
  field element (from `Utils`, outside this core). -/
  byteArrayToMiraclBig : List Nat → Nat
  /-- `epoint2_set(mip, x, y, cb, p)`: set point `p` from the given
  coordinates (or derive y from x when called with `x, x, 1`), returning the
  success indicator. -/
  epoint2_set : Nat → Nat → Nat → Nat → Bool
  /-- `irand(mip, seed)`: re-seed the context's random generator; the
  resulting generator state depends only on the seed. -/
  irand : Nat → Nat
  /-- `bigrand(mip, bound, x)`: draw a random value below `bound` from the
  generator state, returning the drawn value and the new state. -/
  bigrand : Nat → Int → Nat × Nat

/-- Mutable state of the `miracl` context visible to this core: the
pseudo-random generator state and the next fresh point handle
(`epoint_init` returns a fresh native pointer, modelled as a counter). -/
structure MState where
  rng : Nat
  nextHandle : Nat
deriving DecidableEq, Repr

/-- Result of `createF2mPoint`: the returned point handle, the value stored
into `validity[0]`, and the state after the call. -/
structure PointResult where
  point : Nat
  valid : Bool
  state : MState
deriving DecidableEq, Repr

/-- Result of `createRandomF2mPoint`: returned handle, flag written back to
the `validity` array, final state, and the number of sampling attempts the
retry loop performed (iterations that re-seeded, drew `x` and called
`epoint2_set`). -/
structure SampleResult where
  point : Nat
  valid : Bool
  state : MState
  attempts : Nat
deriving DecidableEq, Repr

/-- Outcome of the retry loop of `createRandomF2mPoint`: final generator
state, final `valid[0]`, and the number of iterations executed. -/
structure LoopOut where
  rng : Nat
  valid : Bool
  attempts : Nat
deriving DecidableEq, Repr

/-- `createF2mPoint(env, obj, m, xVal, yVal, validity)`:
reads `valid = GetBooleanArrayElements(validity)`, allocates a point with
`epoint_init`, decodes `x` and `y` with `byteArrayToMiraclBig`, stores
`valid[0] = epoint2_set(mip, x, y, 0, p)`, releases the array and returns
the point.  `validIn` is the caller-supplied `validity[0]`; it is
overwritten unconditionally. -/
def createF2mPoint (c : Collab) (s : MState) (xVal yVal : List Nat)
    (validIn : Bool) : PointResult :=
  let p := s.nextHandle
  let x := c.byteArrayToMiraclBig xVal
  let y := c.byteArrayToMiraclBig yVal
  let valid0 := c.epoint2_set x y 0 p
  { point := p, valid := valid0
    state := { rng := s.rng, nextHandle := s.nextHandle + 1 } }

/-- The bound `mirvar(mip, 2^mod)` computed by `createRandomF2mPoint`:
in C, `2^mod` is bitwise XOR on `int`, not exponentiation. -/
def sampleBound (mod : Int) : Int := xor32 2 mod

/-- The loop bound `int len = 2*mod` of `createRandomF2mPoint`, with C
`int` wrap-around. -/
def sampleLen (mod : Int) : Int := int32 (2 * mod)

/-- The retry loop body of `createRandomF2mPoint`, by fuel (the number of
remaining iterations `len - i`).  Each iteration runs `irand(mip, i)`
(discarding the incoming generator state), `bigrand(mip, bigMod, x)`, and
`epoint2_set(mip, x, x, 1, point)`; on success it writes `valid[0] = 1` and
exits (the C code assigns `i = len`). -/
def randLoop (c : Collab) (bigMod : Int) (point : Nat) :
    Nat → Nat → Nat → Bool → LoopOut
  | 0, _, rng, v => { rng := rng, valid := v, attempts := 0 }
  | Nat.succ k, i, _, v =>
    let rng1 := c.irand i
    let xr := c.bigrand rng1 bigMod
    if c.epoint2_set xr.1 xr.1 1 point then
      { rng := xr.2, valid := true, attempts := 1 }
    else
      let rest := randLoop c bigMod point k (i + 1) xr.2 v
      { rng := rest.rng, valid := rest.valid, attempts := rest.attempts + 1 }

/-- `createRandomF2mPoint(env, obj, m, mod, validity)`: allocates a point,
computes `len = 2*mod` and `bigMod = mirvar(mip, 2^mod)`, then runs the
retry loop; returns the point and writes the flag back. -/
def createRandomF2mPoint (c : Collab) (s : MState) (mod : Int)
    (validIn : Bool) : SampleResult :=
  let point := s.nextHandle
  let out := randLoop c (sampleBound mod) point (sampleLen mod).toNat 0
    s.rng validIn
  { point := point, valid := out.valid
    state := { rng := out.rng, nextHandle := s.nextHandle + 1 }
    attempts := out.attempts }

/-- The candidate x-value the loop draws on iteration `j`: `irand(mip, j)`
re-seeds the generator from the iteration index alone, then `bigrand`
draws from that state, so the candidate depends only on `j` (and the
bound), never on the generator state before the call. -/
def candidate (c : Collab) (bigMod : Int) (j : Nat) : Nat :=
  (c.bigrand (c.irand j) bigMod).1

/-- Whether iteration `j` of the retry loop succeeds: `epoint2_set` called
with the drawn candidate as both coordinate arguments and flag 1
(derive-y mode) on the sampled point. -/
def succeedsAt (c : Collab) (bigMod : Int) (point : Nat) (j : Nat) : Bool :=
  c.epoint2_set (candidate c bigMod j) (candidate c bigMod j) 1 point

/-- Whether any of the iterations `i, i+1, ..., i+k-1` succeeds. -/
def anyWin (c : Collab) (bigMod : Int) (point : Nat) : Nat → Nat → Bool
  | _, 0 => false
  | i, Nat.succ k => succeedsAt c bigMod point i || anyWin c bigMod point (i + 1) k

/-- Concrete collaborator whose set-operation always fails. -/
def failCollab : Collab where
  byteArrayToMiraclBig := fun bs => bs.foldl (fun a b => 256 * a + b) 0
  epoint2_set := fun _ _ _ _ => false
  irand := fun seed => seed
  bigrand := fun rng _ => (rng, rng + 1)

/-- Concrete collaborator whose set-operation always succeeds. -/
def okCollab : Collab where
  byteArrayToMiraclBig := fun bs => bs.foldl (fun a b => 256 * a + b) 0
  epoint2_set := fun _ _ _ _ => true
  irand := fun seed => seed
  bigrand := fun rng _ => (rng, rng + 1)

/-- Concrete collaborator whose set-operation succeeds exactly when the two
coordinate arguments are equal (a toy curve-membership test). -/
def eqCollab : Collab where
  byteArrayToMiraclBig := fun bs => bs.foldl (fun a b => 256 * a + b) 0
  epoint2_set := fun x y _ _ => x == y
  irand := fun seed => seed
  bigrand := fun rng _ => (rng, rng + 1)

/-- Concrete collaborator whose candidate on iteration `j` is `j` itself and
whose set-operation succeeds exactly on candidate 2. -/
def hitCollab : Collab where
  byteArrayToMiraclBig := fun bs => bs.foldl (fun a b => 256 * a + b) 0
  epoint2_set := fun x _ _ _ => x == 2
  irand := fun seed => seed
  bigrand := fun rng _ => (rng, rng)

/-- An initial context state for concrete evaluations. -/
def s0 : MState := { rng := 0, nextHandle := 0 }

theorem randLoop_attempts_le (c : Collab) (b : Int) (p : Nat) :
    ∀ (k i r : Nat) (v : Bool), (randLoop c b p k i r v).attempts ≤ k := by
  intro k
  induction k with
  | zero => intro i r v; simp [randLoop]
  | succ k ih =>
    intro i r v
    simp only [randLoop]
    by_cases h : c.epoint2_set (c.bigrand (c.irand i) b).1
        (c.bigrand (c.irand i) b).1 1 p
    · simp [h]
    · simp only [h, if_false]
      exact Nat.succ_le_succ (ih (i + 1) (c.bigrand (c.irand i) b).2 v)

theorem randLoop_valid_eq (c : Collab) (b : Int) (p : Nat) :
    ∀ (k i r : Nat) (v : Bool),
      (randLoop c b p k i r v).valid = (v || anyWin c b p i k) := by
  intro k
  induction k with
  | zero => intro i r v; simp [randLoop, anyWin]
  | succ k ih =>
    intro i r v
    simp only [randLoop, anyWin]
    by_cases h : succeedsAt c b p i
    · have hc : c.epoint2_set (c.bigrand (c.irand i) b).1
          (c.bigrand (c.irand i) b).1 1 p = true := h
      simp [hc, h]
    · have hc : c.epoint2_set (c.bigrand (c.irand i) b).1
          (c.bigrand (c.irand i) b).1 1 p = false := by
        simpa [succeedsAt, candidate] using h
      simp [hc, h, ih (i + 1) (c.bigrand (c.irand i) b).2 v]

theorem randLoop_attempts_rng (c : Collab) (b : Int) (p : Nat)
    (k i r1 r2 : Nat) (v : Bool) :
    (randLoop c b p k i r1 v).attempts = (randLoop c b p k i r2 v).attempts := by
  cases k <;> rfl

theorem anyWin_eq_false (c : Collab) (b : Int) (p : Nat) :
    ∀ (k i : Nat), (∀ j, j < k → succeedsAt c b p (i + j) = false) →
      anyWin c b p i k = false := by
  intro k
  induction k with
  | zero => intro i _; rfl
  | succ k ih =>
    intro i h
    have h0 : succeedsAt c b p i = false := by
      have := h 0 (Nat.succ_pos k)
      simpa using this
    have h1 : ∀ j, j < k → succeedsAt c b p (i + 1 + j) = false := by
      intro j hj
      have := h (j + 1) (Nat.succ_lt_succ hj)
      have e : i + (j + 1) = i + 1 + j := by omega
      rwa [e] at this
    simp [anyWin, h0, ih (i + 1) h1]

theorem randLoop_first (c : Collab) (b : Int) (p : Nat) :
    ∀ (k j0 i r : Nat) (v : Bool), j0 < k →
      succeedsAt c b p (i + j0) = true →
      (∀ j, j < j0 → succeedsAt c b p (i + j) = false) →
      (randLoop c b p k i r v).valid = true ∧
        (randLoop c b p k i r v).attempts = j0 + 1 := by
  intro k
  induction k with
  | zero => intro j0 i r v h; exact absurd h (Nat.not_lt_zero j0)
  | succ k ih =>
    intro j0 i r v hlt hwin hbefore
    by_cases h : succeedsAt c b p i
    · have hj0 : j0 = 0 := by
        by_contra hne
        have := hbefore 0 (Nat.pos_of_ne_zero hne)
        rw [Nat.add_zero] at this
        exact absurd h (by simp [this])
      have hc : c.epoint2_set (c.bigrand (c.irand i) b).1
          (c.bigrand (c.irand i) b).1 1 p = true := h
      subst hj0
      constructor <;> simp [randLoop, hc]
    · have hc : c.epoint2_set (c.bigrand (c.irand i) b).1
          (c.bigrand (c.irand i) b).1 1 p = false := by
        simpa [succeedsAt, candidate] using h
      have hj0 : j0 ≠ 0 := by
        intro h0
        subst h0
        rw [Nat.add_zero] at hwin
        exact absurd hwin (by simp [h])
      obtain ⟨j1, rfl⟩ := Nat.exists_eq_succ_of_ne_zero hj0
      have hwin1 : succeedsAt c b p (i + 1 + j1) = true := by
        have e : i + (j1 + 1) = i + 1 + j1 := by omega
        rwa [e] at hwin
      have hbefore1 : ∀ j, j < j1 → succeedsAt c b p (i + 1 + j) = false := by
        intro j hj
        have := hbefore (j + 1) (Nat.succ_lt_succ hj)
        have e : i + (j + 1) = i + 1 + j := by omega
        rwa [e] at this
      have hk : j1 < k := Nat.lt_of_succ_lt_succ hlt
      have hrec := ih j1 (i + 1) (c.bigrand (c.irand i) b).2 v hk hwin1 hbefore1
      constructor
      · simp [randLoop, hc, hrec.1]
      · simp [randLoop, hc, hrec.2]

/-- Claim C1: under the hypothesis that the collaborator's set-coordinates
operation (called with flag 0, as `createF2mPoint` does) succeeds exactly
when the coordinate pair lies on the curve, `createF2mPoint` reports
`valid = true` for every pair whose decoded values lie on the curve and
`valid = false` for every pair whose decoded values do not; the embedding
is a total function, so no unrecoverable error is raised. -/
theorem C1_construct_valid_iff_on_curve (c : Collab)
    (onCurve : Nat → Nat → Prop)
    (h : ∀ x y p, c.epoint2_set x y 0 p = true ↔ onCurve x y)
    (s : MState) (xVal yVal : List Nat) (v : Bool) :
    (onCurve (c.byteArrayToMiraclBig xVal) (c.byteArrayToMiraclBig yVal) →
      (createF2mPoint c s xVal yVal v).valid = true) ∧
    (¬ onCurve (c.byteArrayToMiraclBig xVal) (c.byteArrayToMiraclBig yVal) →
      (createF2mPoint c s xVal yVal v).valid = false) := by
  constructor
  · intro hon
    exact (h (c.byteArrayToMiraclBig xVal) (c.byteArrayToMiraclBig yVal)
      s.nextHandle).mpr hon
  · intro hoff
    have := (h (c.byteArrayToMiraclBig xVal) (c.byteArrayToMiraclBig yVal)
      s.nextHandle)
    by_cases hv : (createF2mPoint c s xVal yVal v).valid = true
    · exact absurd (this.mp hv) hoff
    · simpa using hv

theorem C1_witness :
    (createF2mPoint eqCollab s0 [3] [3] false).valid = true ∧
    (createF2mPoint eqCollab s0 [3] [5] true).valid = false := by
  constructor
  · exact (C1_construct_valid_iff_on_curve eqCollab (fun a b => a = b)
      (by intro x y p; exact beq_iff_eq) s0 [3] [3] false).1 (by decide)
  · exact (C1_construct_valid_iff_on_curve eqCollab (fun a b => a = b)
      (by intro x y p; exact beq_iff_eq) s0 [3] [5] true).2 (by decide)

/-- Claim C2 (code bug): the bound the code passes to `mirvar` is the C
expression `2^mod`, which is bitwise XOR on a fixed-width `int`, not two to
the power `mod` in arbitrary precision.  At `mod = 2` the bound is 0 (not
2^2 = 4), and it does not grow with `mod` (`sampleBound 1 = 3` but
`sampleBound 2 = 0`). -/
theorem C2_bound_is_xor_not_pow :
    sampleBound 2 = 0 ∧ sampleBound 1 = 3 ∧ sampleBound 3 = 1 ∧
      sampleBound 2 ≠ 2 ^ 2 := by decide

/-- Claim C3 (corrected): when every attempt in the budget fails, the loop
never writes the flag, so the reported flag equals the caller-supplied
value `v` — it is `false` only when the caller passed `false` in. -/
theorem C3_exhausted_flag_unchanged (c : Collab) (s : MState) (mod : Int)
    (v : Bool)
    (h : ∀ j, j < (sampleLen mod).toNat →
      succeedsAt c (sampleBound mod) s.nextHandle j = false) :
    (createRandomF2mPoint c s mod v).valid = v := by
  have hv := randLoop_valid_eq c (sampleBound mod) s.nextHandle
    (sampleLen mod).toNat 0 s.rng v
  have hw : anyWin c (sampleBound mod) s.nextHandle 0 (sampleLen mod).toNat
      = false := by
    apply anyWin_eq_false
    intro j hj
    simpa using h j hj
  simp [createRandomF2mPoint, hv, hw]

theorem C3_exhausted_flag_unchanged_witness :
    (createRandomF2mPoint failCollab s0 1 false).valid = false :=
  C3_exhausted_flag_unchanged failCollab s0 1 false (by decide)

/-- Claim C3, counterexample to the claim as stated: with a collaborator
that never succeeds and a caller that passed `true` in, the flag reported
after exhausting the budget is `true`, not `false`. -/
theorem C3_counterexample :
    (createRandomF2mPoint failCollab s0 1 true).valid = true := by decide

/-- Claim C6: both entry points return the freshly allocated handle (the
allocator's next handle) unconditionally — for every collaborator, state
and input, hence also when the flag reports failure — and advance the
allocator by one. -/
theorem C6_always_fresh_handle (c : Collab) (s : MState)
    (xVal yVal : List Nat) (v : Bool) (mod : Int) (w : Bool) :
    (createF2mPoint c s xVal yVal v).point = s.nextHandle ∧
    (createF2mPoint c s xVal yVal v).state.nextHandle = s.nextHandle + 1 ∧
    (createRandomF2mPoint c s mod w).point = s.nextHandle ∧
    (createRandomF2mPoint c s mod w).state.nextHandle = s.nextHandle + 1 :=
  ⟨rfl, rfl, rfl, rfl⟩

/-- Claim C7: the flag `createF2mPoint` writes is exactly the success
indicator of `epoint2_set` applied to the decoded x and y (flag argument 0)
on the freshly allocated point, for every collaborator and input. -/
theorem C7_valid_is_set_indicator (c : Collab) (s : MState)
    (xVal yVal : List Nat) (v : Bool) :
    (createF2mPoint c s xVal yVal v).valid =
      c.epoint2_set (c.byteArrayToMiraclBig xVal)
        (c.byteArrayToMiraclBig yVal) 0 s.nextHandle ∧
    (createF2mPoint c s xVal yVal v).point = s.nextHandle :=
  ⟨rfl, rfl⟩

/-- Claim C8: the flag `createRandomF2mPoint` reports is the caller-supplied
value OR-ed with whether some attempt in the budget succeeds: the loop only
ever writes `true`, so when no attempt succeeds the caller's value passes
through — a caller that passes `true` observes `true` even on exhaustion. -/
theorem C8_flag_or_monotone (c : Collab) (s : MState) (mod : Int) (v : Bool) :
    (createRandomF2mPoint c s mod v).valid =
      (v || anyWin c (sampleBound mod) s.nextHandle 0 (sampleLen mod).toNat) := by
  simpa [createRandomF2mPoint] using
    randLoop_valid_eq c (sampleBound mod) s.nextHandle (sampleLen mod).toNat
      0 s.rng v

/-- Claim C4: for every positive `mod`, the retry loop of
`createRandomF2mPoint` performs at most `2 * mod` sampling attempts; the
loop is structurally bounded by its fuel, so it always terminates within
that budget (the fuel `sampleLen mod` is the wrapped C value of `2*mod`,
which never exceeds `2 * mod` when `mod` is positive). -/
theorem C4_attempts_le_budget (c : Collab) (s : MState) (mod : Int)
    (v : Bool) (h : 0 < mod) :
    ((createRandomF2mPoint c s mod v).attempts : Int) ≤ 2 * mod := by
  have hle : (createRandomF2mPoint c s mod v).attempts ≤
      (sampleLen mod).toNat := by
    simpa [createRandomF2mPoint] using
      randLoop_attempts_le c (sampleBound mod) s.nextHandle
        (sampleLen mod).toNat 0 s.rng v
  have hlen : ((sampleLen mod).toNat : Int) ≤ 2 * mod := by
    simp only [sampleLen, int32, ofWord32, toWord32]
    split <;> omega
  calc ((createRandomF2mPoint c s mod v).attempts : Int)
      ≤ ((sampleLen mod).toNat : Int) := by exact_mod_cast hle
    _ ≤ 2 * mod := hlen

theorem C4_attempts_le_budget_witness :
    (0 : Int) < 3 ∧
      ((createRandomF2mPoint failCollab s0 3 false).attempts : Int) ≤ 2 * 3 :=
  ⟨by decide, C4_attempts_le_budget failCollab s0 3 false (by decide)⟩

/-- Claim C5: iteration `j` of the loop re-seeds the generator with `j`
(`irand`), draws a bounded random candidate from the re-seeded state
(`bigrand`, packaged as `candidate`), and calls `epoint2_set` with the
candidate as both coordinate arguments in derive-y mode (flag 1, packaged
as `succeedsAt`); on the first iteration `j0` where this succeeds the flag
is reported `true` and the loop stops — exactly `j0 + 1` attempts run. -/
theorem C5_first_success_stops (c : Collab) (s : MState) (mod : Int)
    (v : Bool) (j0 : Nat)
    (hlt : j0 < (sampleLen mod).toNat)
    (hwin : succeedsAt c (sampleBound mod) s.nextHandle j0 = true)
    (hbefore : ∀ j, j < j0 →
      succeedsAt c (sampleBound mod) s.nextHandle j = false) :
    (createRandomF2mPoint c s mod v).valid = true ∧
    (createRandomF2mPoint c s mod v).attempts = j0 + 1 := by
  have h := randLoop_first c (sampleBound mod) s.nextHandle
    (sampleLen mod).toNat j0 0 s.rng v hlt (by simpa using hwin)
    (by intro j hj; simpa using hbefore j hj)
  exact ⟨by simpa [createRandomF2mPoint] using h.1,
    by simpa [createRandomF2mPoint] using h.2⟩

theorem C5_first_success_stops_witness :
    (createRandomF2mPoint hitCollab s0 3 false).valid = true ∧
    (createRandomF2mPoint hitCollab s0 3 false).attempts = 2 + 1 :=
  C5_first_success_stops hitCollab s0 3 false 2 (by decide) (by decide)
    (by decide)

/-- Claim C9: because `irand` re-seeds the generator from the iteration
index before every draw, the candidate sequence (`candidate`, which takes
no generator-state argument at all) and hence the returned handle, flag and
attempt count of `createRandomF2mPoint` do not depend on the generator
state before the call: two runs differing only in that state agree. -/
theorem C9_independent_of_prior_rng (c : Collab) (mod : Int) (v : Bool)
    (r1 r2 h : Nat) :
    (createRandomF2mPoint c { rng := r1, nextHandle := h } mod v).point =
      (createRandomF2mPoint c { rng := r2, nextHandle := h } mod v).point ∧
    (createRandomF2mPoint c { rng := r1, nextHandle := h } mod v).valid =
      (createRandomF2mPoint c { rng := r2, nextHandle := h } mod v).valid ∧
    (createRandomF2mPoint c { rng := r1, nextHandle := h } mod v).attempts =
      (createRandomF2mPoint c { rng := r2, nextHandle := h } mod v).attempts := by
  refine ⟨rfl, ?_, ?_⟩
  · simp [createRandomF2mPoint, randLoop_valid_eq]
  · simpa [createRandomF2mPoint] using
      randLoop_attempts_rng c (sampleBound mod) h (sampleLen mod).toNat 0
        r1 r2 v

/-- Claim C10, counterexample to the claim as stated: at
`mod = -1073741825` (which is ≤ 0), the C computation `int len = 2*mod`
overflows and wraps to the positive value 2147483646, so the loop body does
execute — here one attempt runs and the flag a caller passed in as `false`
comes back `true`. -/
theorem C10_counterexample :
    (-1073741825 : Int) ≤ 0 ∧
    (createRandomF2mPoint okCollab s0 (-1073741825) false).attempts = 1 ∧
    (createRandomF2mPoint okCollab s0 (-1073741825) false).valid = true := by
  refine ⟨by decide, ?_, ?_⟩ <;> decide

/-- Claim C10 (corrected): for `mod ≤ 0` with `-2^30 ≤ mod` (so that
`2*mod` does not overflow the 32-bit `int`), the loop bound is
non-positive: zero sampling attempts are performed, a fresh handle is still
returned (advancing the allocator), and the validity flag is left at the
caller-supplied value. -/
theorem C10_nonpositive_mod_no_attempts (c : Collab) (s : MState)
    (mod : Int) (v : Bool) (h1 : -1073741824 ≤ mod) (h2 : mod ≤ 0) :
    (createRandomF2mPoint c s mod v).attempts = 0 ∧
    (createRandomF2mPoint c s mod v).valid = v ∧
    (createRandomF2mPoint c s mod v).point = s.nextHandle ∧
    (createRandomF2mPoint c s mod v).state.nextHandle = s.nextHandle + 1 := by
  have hlen : (sampleLen mod).toNat = 0 := by
    simp only [sampleLen, int32, ofWord32, toWord32]
    split <;> omega
  refine ⟨?_, ?_, rfl, rfl⟩ <;> simp [createRandomF2mPoint, hlen, randLoop]

theorem C10_nonpositive_mod_no_attempts_witness :
    (createRandomF2mPoint failCollab s0 (-5) true).attempts = 0 ∧
    (createRandomF2mPoint failCollab s0 (-5) true).valid = true ∧
    (createRandomF2mPoint failCollab s0 (-5) true).point = s0.nextHandle ∧
    (createRandomF2mPoint failCollab s0 (-5) true).state.nextHandle =
      s0.nextHandle + 1 :=
  C10_nonpositive_mod_no_attempts failCollab s0 (-5) true (by decide)
    (by decide)
